import Mathlib

/-!
# Verification of the Ac-DatEP reconciliation and ingestion engine

Shallow embedding of the measurement-ingestion and sensor-reconciliation
code of the Ac-DatEP repository, together with proofs and refutations of
the specification's claims about it.

The embedding follows the Python source:
* `src/api/crud/crud.py` (`CRUDBase.create`),
* `src/api/models/measurement.py` / `sensor.py` (table shapes and keys),
* `src/crawler/frost_db_aachen/frost_crawler.py`
  (`query_api`, `CHARGING_STATION_VALUES`, `crawl_and_feed_observations`,
  the `__main__` loop),
* `src/crawler/frost_db_aachen/frost_helper.py`
  (`feed_table_pd`, `get_starttime`, `is_confidential`),
* `src/crawler/inrix/db_service.py`
  (`get_sensors_to_create`, `create_sensors`, `get_sensor_ids`, `connect`),
* `src/crawler/inrix/main.py` (the `while True` scheduling loop),
* `src/crawler/lanuv/main.py` (`request_values`, `clean_data`),
* `src/crawler/lanuv/db_service.py` (`connect`).

Machine floats are modelled by `ℚ` (the claims only depend on whether a
value is numerically parseable, never on rounding), `DateTime` values by
`ℕ` seconds since the Unix epoch, and SQL tables by lists of rows.
-/

/-! ## Raw observation values and numeric coercion

`pandas.to_numeric(..., errors="coerce")` leaves numbers alone and parses
decimal strings, producing NaN (here `none`) for non-coercible input.
The parser below works on the character list of the string so that every
evaluation reduces in the kernel.  -/

/-- One raw observation `result` as delivered by the FROST API: a JSON
number or a JSON string. -/
inductive RawVal where
  | num (q : ℚ)
  | str (s : String)
deriving DecidableEq, Repr

/-- Accumulating decimal-digit parser: `none` unless every character is a
digit. -/
def parseDigitsAux : List Char → Nat → Option Nat
  | [], acc => some acc
  | c :: cs, acc =>
    if c.isDigit then parseDigitsAux cs (acc * 10 + (c.toNat - 48)) else none

/-- Parses a non-empty all-digit character list to a natural number. -/
def parseDigits : List Char → Option Nat
  | [] => none
  | c :: cs => parseDigitsAux (c :: cs) 0

/-- Splits a character list at the first `'.'`, keeping the remainder
(including any further dots) as the fractional part. -/
def splitOnDot : List Char → List Char × Option (List Char)
  | [] => ([], none)
  | c :: cs =>
    if c = '.' then ([], some cs)
    else
      let p := splitOnDot cs
      (c :: p.1, p.2)

/-- Decimal parser over characters: optional sign, integer part, optional
fractional part.  Models which strings `pandas.to_numeric` coerces. -/
def parseDecimalCore (cs : List Char) : Option ℚ :=
  let sr : Bool × List Char :=
    match cs with
    | '-' :: cs' => (true, cs')
    | '+' :: cs' => (false, cs')
    | _ => (false, cs)
  let p := splitOnDot sr.2
  match p.2 with
  | none => (parseDigits p.1).map fun n => if sr.1 then -(n : ℚ) else (n : ℚ)
  | some f =>
    match parseDigits p.1, parseDigits f with
    | some n, some m =>
      let v : ℚ := (n : ℚ) + (m : ℚ) / ((10 : ℚ) ^ f.length)
      some (if sr.1 then -v else v)
    | _, _ => none

/-- Model of `pandas.to_numeric(s, errors="coerce")` on a string. -/
def parseDecimal (s : String) : Option ℚ := parseDecimalCore s.data

/-- Model of `pandas.to_numeric(v, errors="coerce")` on a raw value:
numbers pass through, strings are parsed, anything non-coercible becomes
NaN (`none`). -/
def toNumeric : RawVal → Option ℚ
  | .num q => some q
  | .str s => parseDecimal s

/-- `frost_crawler.py` lines 24–27 and 470:
`CHARGING_STATION_VALUES = {'charging': 1, 'available': 0, 'outoforder': -1}`
applied as `CHARGING_STATION_VALUES.get(value, value)`. -/
def CHARGING_STATION_VALUES : RawVal → RawVal
  | .str "charging" => .num 1
  | .str "available" => .num 0
  | .str "outoforder" => .num (-1)
  | v => v

/-! ## The measurements table

`src/api/models/measurement.py`: primary key `(datastream_id, timestamp)`,
a non-null `value` and a `confidential` flag.  The table is a list of rows;
an insert violating the primary key raises `IntegrityError`, modelled as
`none`. -/

/-- One row of the `measurements` table. -/
structure MRow where
  datastream_id : Nat
  timestamp : Nat
  value : ℚ
  confidential : Bool
deriving DecidableEq, Repr

/-- The `measurements` table. -/
abbrev MDB := List MRow

/-- The natural key of a measurement row. -/
def mkey (r : MRow) : Nat × Nat := (r.datastream_id, r.timestamp)

/-- Whether the table already stores a row with the given key. -/
def hasKey (db : MDB) (k : Nat × Nat) : Bool :=
  db.any fun x => x.datastream_id = k.1 && x.timestamp = k.2

/-- A single SQL `INSERT`: appends the row, or fails (`IntegrityError`,
modelled as `none`) when the `(datastream_id, timestamp)` primary key is
already present. -/
def insertRow (db : MDB) (r : MRow) : Option MDB :=
  if hasKey db (mkey r) then none else some (db ++ [r])

/-- A transactional bulk insert (`DataFrame.to_sql` /
`Session.add_all; commit`): all rows inserted in order, and the whole
transaction fails (`none`) as soon as one row conflicts. -/
def chunkInsert (db : MDB) : List MRow → Option MDB
  | [] => some db
  | r :: rs =>
    match insertRow db r with
    | none => none
    | some db2 => chunkInsert db2 rs

/-- Row-by-row insertion where each conflicting row is skipped
(`except IntegrityError: pass` per row). -/
def rowByRow (db : MDB) : List MRow → MDB
  | [] => db
  | r :: rs =>
    match insertRow db r with
    | none => rowByRow db rs
    | some db2 => rowByRow db2 rs

/-- What `feed_table_pd` returns: `ok` models Python `True` (empty input or
bulk insert succeeded), `fallback` models the `None` that falls out of the
row-by-row branch. -/
inductive FeedResult where
  | ok
  | fallback
deriving DecidableEq, Repr

/-- `frost_helper.py` lines 646–710, `feed_table_pd`: try to write the
whole frame as one chunk; on `IntegrityError` fall back to writing entry
by entry, silently skipping rows that conflict. -/
def feed_table_pd (db : MDB) (rows : List MRow) : MDB × FeedResult :=
  match rows with
  | [] => (db, .ok)
  | _ :: _ =>
    match chunkInsert db rows with
    | some db2 => (db2, .ok)
    | none => (rowByRow db rows, .fallback)

/-- No two rows of the table share the `(datastream_id, timestamp)` key. -/
def keysOk (db : MDB) : Prop :=
  db.Pairwise fun a b => mkey a ≠ mkey b

instance (db : MDB) : Decidable (keysOk db) := by
  unfold keysOk; infer_instance

/-! ## `CRUDBase.create` (`src/api/crud/crud.py` lines 89–146)

`add_all` + `commit`; on `IntegrityError` roll back and, depending on
`on_duplicate`, either raise `HTTPException(400)` or re-insert row by row,
skipping each row that conflicts. -/

/-- The `on_duplicate` mode of the create endpoint (default `"raise"`). -/
inductive OnDuplicate where
  | raiseDup
  | ignoreDup
deriving DecidableEq, Repr

/-- Outcome of `CRUDBase.create`: success, or an `HTTPException` with a
status code. -/
inductive CreateResult where
  | created
  | httpError (code : Nat)
deriving DecidableEq, Repr

/-- `CRUDBase.create` restricted to what the measurements endpoint uses:
the resulting table and the outcome. -/
def crud_create (db : MDB) (objs : List MRow) (mode : OnDuplicate) :
    MDB × CreateResult :=
  match chunkInsert db objs with
  | some db2 => (db2, .created)
  | none =>
    match mode with
    | .raiseDup => (db, .httpError 400)
    | .ignoreDup => (rowByRow db objs, .created)

/-! ## The FROST observation pipeline
(`frost_crawler.py`, `crawl_and_feed_observations`, lines 398–517) -/

/-- One crawled observation before coercion: internal datastream id, raw
`result`, `phenomenonTime`, and the confidential flag attached at crawl
time. -/
structure Obs where
  datastream_id : Nat
  result : RawVal
  timestamp : Nat
  confidential : Bool
deriving DecidableEq, Repr

/-- Lines 468–471 and 493–497: map charging-station statuses, then coerce
to a number; a row whose value does not coerce is dropped (`dropna`). -/
def coerceRow (o : Obs) : Option MRow :=
  (toNumeric (CHARGING_STATION_VALUES o.result)).map fun q =>
    { datastream_id := o.datastream_id
      timestamp := o.timestamp
      value := q
      confidential := o.confidential }

/-- The rows surviving numeric coercion, in order. -/
def coerceBatch (batch : List Obs) : List MRow :=
  batch.filterMap coerceRow

/-- Lines 496–499: the crawler counts dropped rows as
`length_before - length_after`. -/
def skipped_non_numeric (batch : List Obs) : Nat :=
  batch.length - (coerceBatch batch).length

/-- `DataFrame.drop_duplicates()` with default arguments: whole-row
equality, first occurrence kept (`seen` accumulates rows already kept). -/
def dedupFirstAux : List MRow → List MRow → List MRow
  | _, [] => []
  | seen, r :: rs =>
    if r ∈ seen then dedupFirstAux seen rs
    else r :: dedupFirstAux (r :: seen) rs

/-- Lines 501–505: `obsFrame = obsFrame.drop_duplicates()`. -/
def dedupFirst (rows : List MRow) : List MRow :=
  dedupFirstAux [] rows

/-- Lines 468–510: one datastream's observation batch processed and fed
into the measurements table. -/
def processObservations (db : MDB) (batch : List Obs) : MDB × FeedResult :=
  feed_table_pd db (dedupFirst (coerceBatch batch))

/-! ## Confidentiality lookup and the fetch watermark
(`frost_helper.py` lines 607–643 and 744–763) -/

/-- `frost_helper.is_confidential`: look the flag up by id; on any
exception — connection failure (`dbUp = false`) or no row for the id
(`.loc[0]` raises `KeyError`) — return `True`. -/
def is_confidential (dbUp : Bool) (table : List (Nat × Bool)) (id : Nat) :
    Bool :=
  if dbUp then
    match table.find? fun p => p.1 = id with
    | some p => p.2
    | none => true
  else true

/-- Lines 465–474: every observation row of a datastream's batch is built
with the confidential value looked up once for that datastream. -/
def buildObsRows (dsid : Nat) (conf : Bool) (raw : List (RawVal × Nat)) :
    List Obs :=
  raw.map fun p =>
    { datastream_id := dsid, result := p.1, timestamp := p.2
      confidential := conf }

/-- `frost_crawler.py` line 17: `DEFAULT_START_DATE = '2022-01-01T00:00:00Z'`
(as seconds since the Unix epoch). -/
def DEFAULT_START_DATE : Nat := 1640995200

/-- The most recent stored timestamp for a datastream
(`select timestamp from measurements where datastream_id = … order by
timestamp desc limit 1`). -/
def latestTimestamp (db : MDB) (dsid : Nat) : Option Nat :=
  ((db.filter fun r => r.datastream_id = dsid).map fun r => r.timestamp).max?

/-- `frost_helper.get_starttime`: the latest stored timestamp plus
`timedelta(seconds=10)`, or the default start date when the lookup finds
nothing. -/
def get_starttime (db : MDB) (dsid : Nat) (defaultStart : Nat) : Nat :=
  match latestTimestamp db dsid with
  | some t => t + 10
  | none => defaultStart

/-- One observation tick for a datastream: a failed fetch (`none`, e.g.
every retry timed out) writes nothing; a successful fetch feeds the batch
through the pipeline. -/
def frostObsTick (db : MDB) (fetched : Option (List Obs)) : MDB :=
  match fetched with
  | none => db
  | some batch => (processObservations db batch).1

/-! ## Bounded retry loops

`frost_crawler.query_api` (lines 49–67): `while bad_attempts < 6` with
`time.sleep(3)` between attempts, returning `None` when exhausted.
`lanuv/main.request_values` (lines 28–46): `for attempt in range(5)` with
`time.sleep(5)`, returning `-1` when exhausted.
`lanuv/db_service.connect` (lines 31–49): `for attempt in range(5)`,
returning `-1`.  `inrix/db_service.connect` (lines 17–38): a single
attempt, returning `None` on failure.

An attempt oracle maps the attempt index to `some` result or `none`
(failure); the failure values `None` and `-1` are both modelled as
`none`. -/

/-- Runs up to `fuel` attempts starting at index `i`, returning the first
success. -/
def tryAttempts {α : Type} : Nat → (Nat → Option α) → Nat → Option α
  | 0, _, _ => none
  | n + 1, oracle, i =>
    match oracle i with
    | some a => some a
    | none => tryAttempts n oracle (i + 1)

/-- `frost_crawler.query_api`: up to 6 attempts (`while bad_attempts < 6`). -/
def query_api {α : Type} (oracle : Nat → Option α) : Option α :=
  tryAttempts 6 oracle 0

/-- The fixed backoff of `query_api`: `time.sleep(3)`. -/
def QUERY_API_BACKOFF_SECONDS : Nat := 3

/-- `lanuv/main.request_values`: up to 5 attempts (`for attempt in range(5)`). -/
def request_values {α : Type} (oracle : Nat → Option α) : Option α :=
  tryAttempts 5 oracle 0

/-- The fixed backoff of the LANUV loops: `time.sleep(5)`. -/
def LANUV_BACKOFF_SECONDS : Nat := 5

/-- `lanuv/db_service.connect`: up to 5 attempts. -/
def lanuv_connect {α : Type} (oracle : Nat → Option α) : Option α :=
  tryAttempts 5 oracle 0

/-- `inrix/db_service.connect`: a single attempt, `None` on failure. -/
def inrix_connect {α : Type} (oracle : Nat → Option α) : Option α :=
  oracle 0

/-! ## LANUV value cleaning (`src/crawler/lanuv/main.py` lines 107–112)

For each pollutant column: `str.replace("<", "")`, `str.replace("-", "-1")`,
`str.replace("*", "-1")`, then `astype(int)` — which raises `ValueError`
on anything that is not an integer literal, and `clean_data` re-raises. -/

/-- Replaces every occurrence of the character `c` by the string `r`
(Python `str.replace` with a one-character pattern). -/
def replaceChar (c : Char) (r : List Char) : List Char → List Char
  | [] => []
  | x :: xs =>
    if x = c then r ++ replaceChar c r xs else x :: replaceChar c r xs

/-- The three replacements of `clean_data` in source order. -/
def lanuvCleanChars (cs : List Char) : List Char :=
  replaceChar '*' ['-', '1'] (replaceChar '-' ['-', '1'] (replaceChar '<' [] cs))

/-- Python `int(s)`: optional sign followed by digits. -/
def parseIntChars : List Char → Option Int
  | '-' :: cs => (parseDigits cs).map fun n => -(n : Int)
  | '+' :: cs => (parseDigits cs).map fun n => (n : Int)
  | cs => (parseDigits cs).map fun n => (n : Int)

/-- The per-value behaviour of `clean_data`: the cleaned value as an
integer, or the exception (`.error`) that `astype(int)` raises and
`clean_data` re-raises. -/
def clean_data_value (s : String) : Except String Int :=
  match parseIntChars (lanuvCleanChars s.data) with
  | some n => .ok n
  | none => .error s

/-! ## INRIX sensor reconciliation
(`src/crawler/inrix/db_service.py` lines 58–160, `main.py` lines 279–298)

The `sensors` table (`src/api/models/sensor.py`) has primary key `id`,
a `source`, a free-text `ex_id` without any uniqueness constraint, a
description and a confidential flag (geometry and coordinates are not
relevant to any claim). -/

/-- One row of the `sensors` table. -/
structure SensorRow where
  id : Nat
  source : String
  ex_id : String
  description : String
  confidential : Bool
deriving DecidableEq, Repr

/-- The `sensors` table. -/
abbrev SDB := List SensorRow

/-- The `res` local of `get_sensors_to_create`: the `ex_id`s of sensors
with source `'INRIX'` among the given ids
(`SELECT ex_id FROM sensors WHERE ex_id IN … AND source = 'INRIX'`). -/
def gstc_res (db : SDB) (xdsegids : List String) : List String :=
  (db.filter fun s => s.source == "INRIX" && xdsegids.contains s.ex_id).map
    fun s => s.ex_id

/-- The `sensors_to_be_created` local of `get_sensors_to_create`:
`tuple(x for x in XDSegIDs if x not in res)`. -/
def gstc_toCreate (db : SDB) (xdsegids : List String) : List String :=
  xdsegids.filter fun x => !(gstc_res db xdsegids).contains x

/-- `get_sensors_to_create`: the ids without a sensor, or `None` when
there are none. -/
def get_sensors_to_create (db : SDB) (xdsegids : List String) :
    Option (List String) :=
  if (gstc_toCreate db xdsegids).isEmpty then none
  else some (gstc_toCreate db xdsegids)

/-- The rows `create_sensors` inserts: one per matching row of the `inrix`
reference table, with serially assigned ids, source `'INRIX'`, description
`'INRIX Speed Segment'` and `confidential = True`. -/
def mkInrixRows (startId : Nat) : List String → List SensorRow
  | [] => []
  | x :: xs =>
    { id := startId, source := "INRIX", ex_id := x
      description := "INRIX Speed Segment", confidential := true }
      :: mkInrixRows (startId + 1) xs

/-- `create_sensors`: `INSERT INTO sensors … SELECT 'INRIX', "XDSegID", …
FROM inrix WHERE "XDSegID" IN toCreate`.  There is no uniqueness
constraint and no conflict clause, so the insert always succeeds. -/
def create_sensors (db : SDB) (inrixTable : List String)
    (toCreate : List String) (startId : Nat) : SDB :=
  db ++ mkInrixRows startId (inrixTable.filter fun x => toCreate.contains x)

/-- The sensor-reconciliation step of `InrixCrawler.write_to_database`
(`main.py` lines 279–294): create sensors only for ids
`get_sensors_to_create` reports as missing. -/
def inrix_reconcile (db : SDB) (inrixTable : List String)
    (xdsegids : List String) (startId : Nat) : SDB :=
  match get_sensors_to_create db xdsegids with
  | none => db
  | some toCreate => create_sensors db inrixTable toCreate startId

/-- `get_sensor_ids`: `(id, ex_id)` of every INRIX sensor whose `ex_id`
is among the requested ids. -/
def get_sensor_ids (db : SDB) (ex_ids : List String) : List (Nat × String) :=
  (db.filter fun s => s.source == "INRIX" && ex_ids.contains s.ex_id).map
    fun s => (s.id, s.ex_id)

/-- Two reconciliation runs racing: both runs execute their
`get_sensors_to_create` read before either executes its `create_sensors`
write — the interleaving the spec calls a benign race. -/
def inrix_two_concurrent (db0 : SDB) (inrixTable : List String)
    (ids1 ids2 : List String) (startId1 startId2 : Nat) : SDB :=
  let t1 := get_sensors_to_create db0 ids1
  let t2 := get_sensors_to_create db0 ids2
  let db1 :=
    match t1 with
    | none => db0
    | some t => create_sensors db0 inrixTable t startId1
  match t2 with
  | none => db1
  | some t => create_sensors db1 inrixTable t startId2

/-! ## The INRIX scheduling loop (`src/crawler/inrix/main.py` lines 328–385)

`while True:` connect (`break` on failure), check the `inrix` table
(`break` when missing), fetch a token with retries (`break` on failure),
fetch speed segments (`break` when the response is malformed, i.e.
`get_speed_segments` returned `-1`), write to the database (`break` when
`write_to_database` returns a truthy failure value), then sleep until the
next tick. -/

/-- The environment one tick of the INRIX loop runs in. -/
structure InrixTickEnv where
  conOk : Bool
  xdsExists : Bool
  tokenOk : Bool
  speedOk : Bool
  writeFails : Bool
deriving DecidableEq, Repr

/-- Whether the tick reaches one of the five `break` statements. -/
def inrixTickHalts (e : InrixTickEnv) : Bool :=
  !e.conOk || !e.xdsExists || !e.tokenOk || !e.speedOk || e.writeFails

/-- Outcome of running the loop against a schedule of tick environments:
either the process terminated after some number of executed ticks, or the
whole schedule ran. -/
inductive LoopOutcome where
  | terminated (ticksRun : Nat)
  | ranAll (ticksRun : Nat)
deriving DecidableEq, Repr

/-- The `while True` loop: each tick either `break`s out of the loop or
sleeps and continues with the next tick. -/
def inrixLoop : List InrixTickEnv → LoopOutcome
  | [] => .ranAll 0
  | e :: rest =>
    if inrixTickHalts e then .terminated 1
    else
      match inrixLoop rest with
      | .terminated n => .terminated (n + 1)
      | .ranAll n => .ranAll (n + 1)

/-! ## Lemmas about the insertion machinery -/

theorem hasKey_iff (db : MDB) (k : Nat × Nat) :
    hasKey db k = true ↔ ∃ r ∈ db, mkey r = k := by
  simp only [hasKey, List.any_eq_true, decide_eq_true_eq, Bool.and_eq_true]
  constructor
  · rintro ⟨r, hr, h1, h2⟩
    exact ⟨r, hr, by simp [mkey, h1, h2]⟩
  · rintro ⟨r, hr, h⟩
    refine ⟨r, hr, ?_, ?_⟩ <;> simp [mkey, Prod.ext_iff] at h <;> simp [h]

theorem hasKey_eq_false_iff (db : MDB) (k : Nat × Nat) :
    hasKey db k = false ↔ ∀ r ∈ db, mkey r ≠ k := by
  rw [← Bool.not_eq_true, hasKey_iff]
  simp

theorem hasKey_append_singleton (db : MDB) (r : MRow) (k : Nat × Nat) :
    hasKey (db ++ [r]) k = (hasKey db k || decide (mkey r = k)) := by
  simp only [hasKey, List.any_append, List.any_cons, List.any_nil, Bool.or_false]
  congr 1
  by_cases h1 : r.datastream_id = k.1 <;> by_cases h2 : r.timestamp = k.2 <;>
    simp [mkey, Prod.ext_iff, h1, h2]

theorem mem_of_mem_rowByRow_src (rows : List MRow) :
    ∀ (db : MDB) (x : MRow), x ∈ db → x ∈ rowByRow db rows := by
  induction rows with
  | nil => intro db x hx; simpa [rowByRow] using hx
  | cons r rs ih =>
    intro db x hx
    simp only [rowByRow]
    cases h : insertRow db r with
    | none => exact ih db x hx
    | some db2 =>
      apply ih
      unfold insertRow at h
      by_cases hk : hasKey db (mkey r) = true
      · simp [hk] at h
      · simp only [Bool.not_eq_true] at hk
        simp [hk] at h
        subst h
        exact List.mem_append_left _ hx

theorem prefix_rowByRow (rows : List MRow) :
    ∀ db : MDB, db <+: rowByRow db rows := by
  induction rows with
  | nil => intro db; simp [rowByRow]
  | cons r rs ih =>
    intro db
    simp only [rowByRow]
    cases h : insertRow db r with
    | none => exact ih db
    | some db2 =>
      unfold insertRow at h
      by_cases hk : hasKey db (mkey r) = true
      · simp [hk] at h
      · simp only [Bool.not_eq_true] at hk
        simp [hk] at h
        subst h
        exact List.IsPrefix.trans ⟨[r], rfl⟩ (ih (db ++ [r]))

theorem hasKey_rowByRow (rows : List MRow) :
    ∀ (db : MDB) (k : Nat × Nat),
      hasKey (rowByRow db rows) k
        = (hasKey db k || rows.any fun r => decide (mkey r = k)) := by
  induction rows with
  | nil => intro db k; simp [rowByRow]
  | cons r rs ih =>
    intro db k
    simp only [rowByRow, List.any_cons]
    cases h : insertRow db r with
    | none =>
      rw [ih db k]
      unfold insertRow at h
      by_cases hk : hasKey db (mkey r) = true
      · by_cases hrk : mkey r = k
        · subst hrk; simp [hk]
        · simp [hrk]
      · simp [hk] at h
    | some db2 =>
      rw [ih db2 k]
      unfold insertRow at h
      by_cases hk : hasKey db (mkey r) = true
      · simp [hk] at h
      · simp only [Bool.not_eq_true] at hk
        simp [hk] at h
        subst h
        rw [hasKey_append_singleton]
        cases hasKey db k <;> cases hrk : decide (mkey r = k) <;> simp

theorem mem_rowByRow (rows : List MRow) :
    ∀ (db : MDB) (x : MRow), x ∈ rowByRow db rows → x ∈ db ∨ x ∈ rows := by
  induction rows with
  | nil => intro db x hx; left; simpa [rowByRow] using hx
  | cons r rs ih =>
    intro db x hx
    simp only [rowByRow] at hx
    cases h : insertRow db r with
    | none =>
      rw [h] at hx
      rcases ih db x hx with h1 | h1
      · exact Or.inl h1
      · exact Or.inr (List.mem_cons_of_mem _ h1)
    | some db2 =>
      rw [h] at hx
      unfold insertRow at h
      by_cases hk : hasKey db (mkey r) = true
      · simp [hk] at h
      · simp only [Bool.not_eq_true] at hk
        simp [hk] at h
        subst h
        rcases ih _ x hx with h1 | h1
        · rcases List.mem_append.mp h1 with h2 | h2
          · exact Or.inl h2
          · simp at h2
            exact Or.inr (by simp [h2])
        · exact Or.inr (List.mem_cons_of_mem _ h1)

theorem rowByRow_insert_of_fresh (rows : List MRow) :
    ∀ (db : MDB) (r : MRow), r ∈ rows → hasKey db (mkey r) = false →
      (∀ r' ∈ rows, mkey r' = mkey r → r' = r) → r ∈ rowByRow db rows := by
  induction rows with
  | nil => intro db r hr; simp at hr
  | cons r0 rs ih =>
    intro db r hr hfree huniq
    simp only [rowByRow]
    rcases List.mem_cons.mp hr with heq | hmem
    · subst heq
      cases h : insertRow db r with
      | none => unfold insertRow at h; simp [hfree] at h
      | some db2 =>
        unfold insertRow at h
        simp [hfree] at h
        subst h
        exact mem_of_mem_rowByRow_src rs _ r (List.mem_append_right _ (by simp))
    · cases h : insertRow db r0 with
      | none =>
        exact ih db r hmem hfree fun r' h' => huniq r' (List.mem_cons_of_mem _ h')
      | some db2 =>
        unfold insertRow at h
        by_cases hk : hasKey db (mkey r0) = true
        · simp [hk] at h
        · simp only [Bool.not_eq_true] at hk
          simp [hk] at h
          subst h
          by_cases hk0 : mkey r0 = mkey r
          · have hr0 : r0 = r := huniq r0 (by simp) hk0
            subst hr0
            exact mem_of_mem_rowByRow_src rs _ r0
              (List.mem_append_right _ (by simp))
          · apply ih _ r hmem _ fun r' h' => huniq r' (List.mem_cons_of_mem _ h')
            rw [hasKey_append_singleton, hfree, Bool.false_or,
              decide_eq_false_iff_not]
            exact hk0

theorem chunkInsert_eq_append (rows : List MRow) :
    ∀ db db2 : MDB, chunkInsert db rows = some db2 → db2 = db ++ rows := by
  induction rows with
  | nil => intro db db2 h; simp [chunkInsert] at h; simp [h]
  | cons r rs ih =>
    intro db db2 h
    simp only [chunkInsert] at h
    cases hi : insertRow db r with
    | none => rw [hi] at h; cases h
    | some db1 =>
      rw [hi] at h
      unfold insertRow at hi
      by_cases hk : hasKey db (mkey r) = true
      · simp [hk] at hi
      · simp only [Bool.not_eq_true] at hk
        simp [hk] at hi
        subst hi
        simpa using ih _ _ h

theorem chunkInsert_eq_rowByRow (rows : List MRow) :
    ∀ db db2 : MDB, chunkInsert db rows = some db2 → rowByRow db rows = db2 := by
  induction rows with
  | nil => intro db db2 h; simp [chunkInsert] at h; simp [rowByRow, h]
  | cons r rs ih =>
    intro db db2 h
    simp only [chunkInsert] at h
    simp only [rowByRow]
    cases hi : insertRow db r with
    | none => rw [hi] at h; cases h
    | some db1 =>
      rw [hi] at h
      exact ih _ _ h

theorem feed_table_pd_fst (db : MDB) (rows : List MRow) :
    (feed_table_pd db rows).1 = rowByRow db rows := by
  cases rows with
  | nil => simp [feed_table_pd, rowByRow]
  | cons r rs =>
    simp only [feed_table_pd]
    cases h : chunkInsert db (r :: rs) with
    | none => rfl
    | some db2 => simp [chunkInsert_eq_rowByRow _ _ _ h]

theorem crud_create_ignore (db : MDB) (objs : List MRow) :
    crud_create db objs .ignoreDup = (rowByRow db objs, .created) := by
  simp only [crud_create]
  cases h : chunkInsert db objs with
  | none => rfl
  | some db2 => simp [chunkInsert_eq_rowByRow _ _ _ h]

theorem keysOk_append_singleton (db : MDB) (r : MRow)
    (hdb : keysOk db) (hfree : hasKey db (mkey r) = false) :
    keysOk (db ++ [r]) := by
  unfold keysOk at hdb ⊢
  rw [List.pairwise_append]
  refine ⟨hdb, by simp, ?_⟩
  intro a ha b hb
  simp only [List.mem_singleton] at hb
  rw [hb]
  exact (hasKey_eq_false_iff db (mkey r)).mp hfree a ha

theorem keysOk_rowByRow (rows : List MRow) :
    ∀ db : MDB, keysOk db → keysOk (rowByRow db rows) := by
  induction rows with
  | nil => intro db h; simpa [rowByRow] using h
  | cons r rs ih =>
    intro db hdb
    simp only [rowByRow]
    cases h : insertRow db r with
    | none => exact ih db hdb
    | some db2 =>
      unfold insertRow at h
      by_cases hk : hasKey db (mkey r) = true
      · simp [hk] at h
      · simp only [Bool.not_eq_true] at hk
        simp [hk] at h
        subst h
        exact ih _ (keysOk_append_singleton db r hdb hk)

theorem rowByRow_fix_of_all_present (rows : List MRow) :
    ∀ db : MDB, (∀ r ∈ rows, hasKey db (mkey r) = true) →
      rowByRow db rows = db := by
  induction rows with
  | nil => intro db _; simp [rowByRow]
  | cons r rs ih =>
    intro db hall
    simp only [rowByRow]
    cases h : insertRow db r with
    | none => exact ih db fun r' hr' => hall r' (List.mem_cons_of_mem _ hr')
    | some db2 =>
      unfold insertRow at h
      rw [hall r (by simp)] at h
      cases h

theorem hasKey_rowByRow_of_mem (rows : List MRow) (db : MDB) (r : MRow)
    (hr : r ∈ rows) : hasKey (rowByRow db rows) (mkey r) = true := by
  rw [hasKey_rowByRow]
  have : rows.any (fun x => decide (mkey x = mkey r)) = true :=
    List.any_eq_true.mpr ⟨r, hr, by simp⟩
  simp [this]

/-! ## Lemmas about `drop_duplicates` -/

theorem mem_dedupFirstAux (rows : List MRow) :
    ∀ (seen : List MRow) (x : MRow),
      x ∈ dedupFirstAux seen rows ↔ x ∈ rows ∧ x ∉ seen := by
  induction rows with
  | nil => intro seen x; simp [dedupFirstAux]
  | cons r rs ih =>
    intro seen x
    simp only [dedupFirstAux]
    by_cases hr : r ∈ seen
    · rw [if_pos hr, ih]
      constructor
      · rintro ⟨h1, h2⟩
        exact ⟨List.mem_cons_of_mem _ h1, h2⟩
      · rintro ⟨h1, h2⟩
        rcases List.mem_cons.mp h1 with he | hm
        · subst he; exact absurd hr h2
        · exact ⟨hm, h2⟩
    · rw [if_neg hr]
      simp only [List.mem_cons, ih]
      constructor
      · rintro (he | ⟨h1, h2⟩)
        · subst he; exact ⟨Or.inl rfl, hr⟩
        · exact ⟨Or.inr h1, fun hc => h2 (Or.inr hc)⟩
      · rintro ⟨he | h1, h2⟩
        · exact Or.inl he
        · by_cases hxr : x = r
          · exact Or.inl hxr
          · exact Or.inr ⟨h1, by simp [hxr, h2]⟩

theorem mem_dedupFirst (rows : List MRow) (x : MRow) :
    x ∈ dedupFirst rows ↔ x ∈ rows := by
  rw [dedupFirst, mem_dedupFirstAux]
  simp

theorem nodup_dedupFirstAux (rows : List MRow) :
    ∀ seen : List MRow, (dedupFirstAux seen rows).Nodup := by
  induction rows with
  | nil => intro seen; simp [dedupFirstAux]
  | cons r rs ih =>
    intro seen
    simp only [dedupFirstAux]
    by_cases hr : r ∈ seen
    · rw [if_pos hr]; exact ih seen
    · rw [if_neg hr]
      refine List.Nodup.cons ?_ (ih (r :: seen))
      intro hc
      exact ((mem_dedupFirstAux rs (r :: seen) r).mp hc).2 (by simp)

theorem nodup_dedupFirst (rows : List MRow) : (dedupFirst rows).Nodup :=
  nodup_dedupFirstAux rows []

/-! ## Lemmas about the retry loops -/

theorem tryAttempts_eq_none_iff {α : Type} (n : Nat) (oracle : Nat → Option α) :
    ∀ i, tryAttempts n oracle i = none ↔ ∀ j, j < n → oracle (i + j) = none := by
  induction n with
  | zero => intro i; simp [tryAttempts]
  | succ m ih =>
    intro i
    simp only [tryAttempts]
    cases h : oracle i with
    | some a =>
      constructor
      · intro hc; cases hc
      · intro hall
        have h0 := hall 0 (Nat.succ_pos m)
        rw [Nat.add_zero, h] at h0
        cases h0
    | none =>
      rw [ih (i + 1)]
      constructor
      · intro hall j hj
        cases j with
        | zero => rw [Nat.add_zero]; exact h
        | succ k =>
          have hk := hall k (Nat.lt_of_succ_lt_succ hj)
          have he : i + 1 + k = i + (k + 1) := by omega
          rw [he] at hk
          exact hk
      · intro hall j hj
        have hk := hall (j + 1) (Nat.succ_lt_succ hj)
        have he : i + (j + 1) = i + 1 + j := by omega
        rw [he] at hk
        exact hk

theorem tryAttempts_eq_some_of_oracle {α : Type} (n : Nat)
    (oracle : Nat → Option α) :
    ∀ i j a, j < n → oracle (i + j) = some a →
      (∀ k, k < j → oracle (i + k) = none) →
      tryAttempts n oracle i = some a := by
  induction n with
  | zero => intro i j a hj _ _; exact absurd hj (Nat.not_lt_zero j)
  | succ m ih =>
    intro i j a hj hja hbefore
    simp only [tryAttempts]
    cases j with
    | zero =>
      rw [Nat.add_zero] at hja
      rw [hja]
    | succ k =>
      have h0 : oracle i = none := by
        have hb := hbefore 0 (Nat.succ_pos k)
        rwa [Nat.add_zero] at hb
      rw [h0]
      apply ih (i + 1) k a (Nat.lt_of_succ_lt_succ hj)
      · have he : i + 1 + k = i + (k + 1) := by omega
        rw [he]
        exact hja
      · intro l hl
        have hb := hbefore (l + 1) (Nat.succ_lt_succ hl)
        have he : i + (l + 1) = i + 1 + l := by omega
        rw [he] at hb
        exact hb

/-! ## Lemmas about the INRIX sensors table -/

/-- How many sensors with source `'INRIX'` and the given external id the
table stores. -/
def inrixCountFor (db : SDB) (x : String) : Nat :=
  db.countP fun s => s.source == "INRIX" && s.ex_id == x

theorem inrixCountFor_append (db1 db2 : SDB) (x : String) :
    inrixCountFor (db1 ++ db2) x = inrixCountFor db1 x + inrixCountFor db2 x :=
  List.countP_append _ _ _

theorem inrixCountFor_mkInrixRows (l : List String) :
    ∀ (startId : Nat) (x : String),
      inrixCountFor (mkInrixRows startId l) x = l.count x := by
  induction l with
  | nil => intro i x; simp [mkInrixRows, inrixCountFor]
  | cons y ys ih =>
    intro i x
    simp only [mkInrixRows, inrixCountFor, List.countP_cons, List.count_cons]
    rw [← inrixCountFor, ih (i + 1) x]
    by_cases hxy : y = x
    · simp [hxy]
    · simp [hxy, Ne.symm hxy]

theorem inrixCountFor_pos_iff (db : SDB) (x : String) :
    0 < inrixCountFor db x ↔ ∃ s ∈ db, s.source = "INRIX" ∧ s.ex_id = x := by
  unfold inrixCountFor
  rw [List.countP_pos_iff]
  constructor
  · rintro ⟨s, hs, hp⟩
    simp only [Bool.and_eq_true, beq_iff_eq] at hp
    exact ⟨s, hs, hp⟩
  · rintro ⟨s, hs, h1, h2⟩
    exact ⟨s, hs, by simp [h1, h2]⟩

theorem count_filter_split (p : String → Bool) (x : String) (l : List String) :
    (l.filter p).count x = if p x then l.count x else 0 := by
  induction l with
  | nil => simp
  | cons y ys ih =>
    by_cases hpy : p y = true
    · rw [List.filter_cons_of_pos hpy, List.count_cons, List.count_cons, ih]
      by_cases hxy : x = y
      · subst hxy; simp [hpy]
      · have hyx : ¬y = x := fun h => hxy h.symm
        simp [hyx]
    · rw [List.filter_cons_of_neg (by simpa using hpy), ih, List.count_cons]
      by_cases hxy : x = y
      · subst hxy; simp [hpy]
      · have hyx : ¬y = x := fun h => hxy h.symm
        simp [hyx]

theorem mem_gstc_toCreate_iff (db : SDB) (ids : List String) (x : String)
    (hx : x ∈ ids) :
    x ∈ gstc_toCreate db ids ↔ inrixCountFor db x = 0 := by
  unfold gstc_toCreate gstc_res
  rw [List.mem_filter]
  simp only [hx, true_and, Bool.not_eq_true']
  rw [← Bool.not_eq_true, List.elem_iff]
  simp only [List.mem_map, List.mem_filter, Bool.and_eq_true, beq_iff_eq]
  constructor
  · intro hne
    by_contra h0
    have hpos : 0 < inrixCountFor db x := Nat.pos_of_ne_zero h0
    obtain ⟨s, hs, h1, h2⟩ := (inrixCountFor_pos_iff db x).mp hpos
    exact hne ⟨s, ⟨hs, h1, by rw [h2]; simpa using hx⟩, h2⟩
  · rintro h0 ⟨s, ⟨hs, h1, _⟩, h2⟩
    have hpos : 0 < inrixCountFor db x :=
      (inrixCountFor_pos_iff db x).mpr ⟨s, hs, h1, h2⟩
    omega

theorem gstc_eq_none_iff (db : SDB) (ids : List String) :
    get_sensors_to_create db ids = none ↔ gstc_toCreate db ids = [] := by
  unfold get_sensors_to_create
  by_cases he : (gstc_toCreate db ids).isEmpty
  · simp [he, List.isEmpty_iff.mp he]
  · simp only [he, Bool.false_eq_true, if_false]
    simp only [reduceCtorEq, false_iff]
    exact fun hc => he (by simp [hc])

theorem gstc_eq_some (db : SDB) (ids : List String) (t : List String)
    (h : get_sensors_to_create db ids = some t) : t = gstc_toCreate db ids := by
  unfold get_sensors_to_create at h
  by_cases he : (gstc_toCreate db ids).isEmpty
  · simp [he] at h
  · simp only [he, Bool.false_eq_true, if_false, Option.some.injEq] at h
    exact h.symm

theorem inrixCountFor_reconcile (db0 : SDB) (inrixTable ids : List String)
    (startId : Nat) (hnodup : inrixTable.Nodup)
    (huniq : ∀ y, inrixCountFor db0 y ≤ 1)
    (x : String) (hxids : x ∈ ids) (hxtab : x ∈ inrixTable) :
    inrixCountFor (inrix_reconcile db0 inrixTable ids startId) x = 1 := by
  have hx1 := huniq x
  cases hg : get_sensors_to_create db0 ids with
  | none =>
    have hd : inrix_reconcile db0 inrixTable ids startId = db0 := by
      unfold inrix_reconcile; rw [hg]
    rw [hd]
    have hne : gstc_toCreate db0 ids = [] := (gstc_eq_none_iff db0 ids).mp hg
    have hnz : ¬inrixCountFor db0 x = 0 := by
      intro h0
      have hmem := (mem_gstc_toCreate_iff db0 ids x hxids).mpr h0
      rw [hne] at hmem
      simp at hmem
    omega
  | some t =>
    have hd : inrix_reconcile db0 inrixTable ids startId
        = create_sensors db0 inrixTable t startId := by
      unfold inrix_reconcile; rw [hg]
    rw [hd]
    have ht : t = gstc_toCreate db0 ids := gstc_eq_some db0 ids t hg
    unfold create_sensors
    rw [inrixCountFor_append, inrixCountFor_mkInrixRows, count_filter_split]
    by_cases h0 : inrixCountFor db0 x = 0
    · have hxt : x ∈ t := by
        rw [ht]
        exact (mem_gstc_toCreate_iff db0 ids x hxids).mpr h0
      rw [if_pos (by simpa using hxt)]
      rw [List.count_eq_one_of_mem hnodup hxtab]
      omega
    · have hxt : x ∉ t := by
        intro hmem
        rw [ht] at hmem
        exact h0 ((mem_gstc_toCreate_iff db0 ids x hxids).mp hmem)
      rw [if_neg (by simpa using hxt)]
      omega

theorem get_sensor_ids_covers (db : SDB) (ids : List String) (x : String)
    (hxids : x ∈ ids) (hpos : 0 < inrixCountFor db x) :
    ∃ p ∈ get_sensor_ids db ids, p.2 = x := by
  obtain ⟨s, hs, h1, h2⟩ := (inrixCountFor_pos_iff db x).mp hpos
  refine ⟨(s.id, s.ex_id), ?_, h2⟩
  unfold get_sensor_ids
  simp only [List.mem_map, List.mem_filter, Bool.and_eq_true, beq_iff_eq]
  exact ⟨s, ⟨hs, h1, by rw [h2]; simpa using hxids⟩, rfl⟩

/-! ## Lemmas about the observation pipeline and the INRIX loop -/

theorem coerceRow_confidential (o : Obs) (r : MRow)
    (h : coerceRow o = some r) : r.confidential = o.confidential := by
  unfold coerceRow at h
  cases ht : toNumeric (CHARGING_STATION_VALUES o.result) with
  | none => rw [ht] at h; cases h
  | some q =>
    rw [ht] at h
    simp only [Option.map_some', Option.some.injEq] at h
    rw [← h]

theorem mem_buildObsRows (dsid : Nat) (conf : Bool) (raw : List (RawVal × Nat))
    (o : Obs) (h : o ∈ buildObsRows dsid conf raw) : o.confidential = conf := by
  unfold buildObsRows at h
  obtain ⟨p, _, hp⟩ := List.mem_map.mp h
  rw [← hp]

theorem coerceBatch_length_add (batch : List Obs) :
    (coerceBatch batch).length
        + (batch.filter fun o => (coerceRow o).isNone).length
      = batch.length := by
  induction batch with
  | nil => rfl
  | cons o os ih =>
    simp only [coerceBatch, List.filterMap_cons] at ih ⊢
    cases h : coerceRow o with
    | none => simp [List.filter_cons, h]; omega
    | some r => simp [List.filter_cons, h]; omega

theorem inrixLoop_ranAll_of_all_ok (envs : List InrixTickEnv)
    (hall : ∀ e ∈ envs, inrixTickHalts e = false) :
    inrixLoop envs = .ranAll envs.length := by
  induction envs with
  | nil => rfl
  | cons e rest ih =>
    have he : inrixTickHalts e = false := hall e (by simp)
    simp only [inrixLoop, he, Bool.false_eq_true, if_false]
    rw [ih fun e' h' => hall e' (List.mem_cons_of_mem _ h')]
    simp

theorem inrixLoop_all_ok_of_ranAll (envs : List InrixTickEnv) (n : Nat)
    (h : inrixLoop envs = .ranAll n) :
    ∀ e ∈ envs, inrixTickHalts e = false := by
  induction envs generalizing n with
  | nil => intro e he; simp at he
  | cons e0 rest ih =>
    intro e he
    simp only [inrixLoop] at h
    by_cases hh : inrixTickHalts e0 = true
    · rw [if_pos hh] at h; cases h
    · rw [if_neg hh] at h
      simp only [Bool.not_eq_true] at hh
      rcases List.mem_cons.mp he with he0 | hmem
      · rw [he0]; exact hh
      · cases hlo : inrixLoop rest with
        | terminated m => rw [hlo] at h; cases h
        | ranAll m => exact ih m hlo e hmem

/-! ## The claims -/

/-- C1, counterexample: with the endpoint's default `on_duplicate="raise"`,
a second write of a measurement whose `(datastream_id, timestamp)` key is
already stored is *not* a no-op — `CRUDBase.create` rolls back and raises
`HTTPException(400)`, so the claim's "raises no error" is false for the
default mode. -/
theorem C1_counterexample :
    crud_create [⟨7, 0, 1, false⟩] [⟨7, 0, 1, false⟩] .raiseDup
      = ([⟨7, 0, 1, false⟩], .httpError 400) := rfl

/-- C1, amended: when `CRUDBase.create` is called with
`on_duplicate="ignore"`, a second write for an already stored key is a
no-op — no error is raised, no second row is created (key uniqueness is
preserved), the stored rows are unchanged (the old table is a prefix of
the new one) — and running the same batch a second time returns the very
same table. -/
theorem C1_ingest_ignore_idempotent (db : MDB) (B : List MRow)
    (hdb : keysOk db) :
    (crud_create db B .ignoreDup).2 = .created ∧
    keysOk (crud_create db B .ignoreDup).1 ∧
    db <+: (crud_create db B .ignoreDup).1 ∧
    crud_create (crud_create db B .ignoreDup).1 B .ignoreDup
      = ((crud_create db B .ignoreDup).1, .created) := by
  rw [crud_create_ignore]
  refine ⟨rfl, keysOk_rowByRow B db hdb, prefix_rowByRow B db, ?_⟩
  rw [crud_create_ignore]
  rw [rowByRow_fix_of_all_present B _ fun r hr => hasKey_rowByRow_of_mem B db r hr]

/-- C1, witness: the amended theorem applied to a one-row table and a
batch that re-writes the stored key and adds a fresh key. -/
theorem C1_ingest_ignore_idempotent_witness :
    (crud_create [⟨1, 0, 1, false⟩] [⟨1, 0, 2, false⟩, ⟨2, 5, 3, true⟩]
        .ignoreDup).2 = .created ∧
    crud_create
        (crud_create [⟨1, 0, 1, false⟩] [⟨1, 0, 2, false⟩, ⟨2, 5, 3, true⟩]
          .ignoreDup).1
        [⟨1, 0, 2, false⟩, ⟨2, 5, 3, true⟩] .ignoreDup
      = ((crud_create [⟨1, 0, 1, false⟩] [⟨1, 0, 2, false⟩, ⟨2, 5, 3, true⟩]
          .ignoreDup).1, .created) := by
  have h := C1_ingest_ignore_idempotent [⟨1, 0, 1, false⟩]
    [⟨1, 0, 2, false⟩, ⟨2, 5, 3, true⟩] (by decide)
  exact ⟨h.1, h.2.2.2⟩

/-- C5: `feed_table_pd` submits the whole batch as one bulk insert first
(when the bulk insert succeeds the function returns it unchanged with
`True`); it falls back to one-at-a-time insertion only when the bulk
insert hits a uniqueness violation; a per-row violation during the
fallback is skipped, never surfaced as an error — afterwards every batch
row's key resolves by lookup (the entity now exists) — while the stored
rows are untouched, no duplicate key is ever created, and every
conflict-free row of the batch is still committed. -/
theorem C5_feed_bulk_then_fallback (db : MDB) (rows : List MRow) :
    ((feed_table_pd db rows).2 = .fallback →
      rows ≠ [] ∧ chunkInsert db rows = none) ∧
    (∀ db2, chunkInsert db rows = some db2 →
      feed_table_pd db rows = (db2, .ok)) ∧
    db <+: (feed_table_pd db rows).1 ∧
    (∀ r ∈ rows, hasKey (feed_table_pd db rows).1 (mkey r) = true) ∧
    (keysOk db → keysOk (feed_table_pd db rows).1) ∧
    (∀ r ∈ rows, hasKey db (mkey r) = false →
      (∀ r' ∈ rows, mkey r' = mkey r → r' = r) →
      r ∈ (feed_table_pd db rows).1) := by
  refine ⟨?_, ?_, ?_, ?_, ?_, ?_⟩
  · intro hfb
    cases rows with
    | nil => cases hfb
    | cons r rs =>
      refine ⟨by simp, ?_⟩
      cases hc : chunkInsert db (r :: rs) with
      | none => rfl
      | some db2 => simp [feed_table_pd, hc] at hfb
  · intro db2 hc
    cases rows with
    | nil =>
      simp only [chunkInsert] at hc
      cases hc
      rfl
    | cons r rs => simp [feed_table_pd, hc]
  · rw [feed_table_pd_fst]; exact prefix_rowByRow rows db
  · intro r hr
    rw [feed_table_pd_fst]
    exact hasKey_rowByRow_of_mem rows db r hr
  · intro hdb
    rw [feed_table_pd_fst]
    exact keysOk_rowByRow rows db hdb
  · intro r hr hfree huniq
    rw [feed_table_pd_fst]
    exact rowByRow_insert_of_fresh rows db r hr hfree huniq

/-- C5, witness: the theorem applied to an empty table and a one-row
batch — the bulk insert succeeds and the key is resolvable afterwards. -/
theorem C5_feed_bulk_then_fallback_witness :
    feed_table_pd [] [⟨1, 0, 1, false⟩] = ([⟨1, 0, 1, false⟩], .ok) ∧
    hasKey (feed_table_pd [] [⟨1, 0, 1, false⟩]).1 (1, 0) = true := by
  have h := C5_feed_bulk_then_fallback [] [⟨1, 0, 1, false⟩]
  exact ⟨h.2.1 [⟨1, 0, 1, false⟩] rfl, h.2.2.2.1 ⟨1, 0, 1, false⟩ (by simp)⟩

/-- C7, counterexample: for a store holding one measurement for
datastream 5 with timestamp 100, `get_starttime` returns 110 — the latest
stored timestamp *plus 10 seconds* (`latest + timedelta(seconds=10)`),
not the timestamp itself as the claim states. -/
theorem C7_counterexample :
    get_starttime [⟨5, 100, 1, false⟩] 5 DEFAULT_START_DATE = 110 ∧
      (110 : Nat) ≠ 100 := by
  exact ⟨rfl, by decide⟩

/-- C7, amended: the start of the next fetch window is the timestamp of
the most recent stored measurement for the datastream *plus 10 seconds*,
and the fixed default epoch (2022-01-01T00:00:00Z) when no measurement
exists; a failed tick writes nothing, so the watermark — a pure function
of the stored measurements — is unchanged and the next tick re-requests
the same window. -/
theorem C7_watermark (db : MDB) (dsid : Nat) (d : Nat) :
    (latestTimestamp db dsid = none → get_starttime db dsid d = d) ∧
    (∀ t, latestTimestamp db dsid = some t →
      get_starttime db dsid d = t + 10) ∧
    frostObsTick db none = db ∧
    get_starttime (frostObsTick db none) dsid d = get_starttime db dsid d := by
  refine ⟨?_, ?_, rfl, rfl⟩
  · intro h; simp [get_starttime, h]
  · intro t h; simp [get_starttime, h]

/-- C7, witness: the amended theorem evaluated on a one-measurement store
(watermark 110 = 100 + 10) and on the empty store (the default epoch). -/
theorem C7_watermark_witness :
    get_starttime [⟨5, 100, 1, false⟩] 5 DEFAULT_START_DATE = 110 ∧
    get_starttime [] 5 DEFAULT_START_DATE = DEFAULT_START_DATE := by
  constructor
  · exact (C7_watermark [⟨5, 100, 1, false⟩] 5 DEFAULT_START_DATE).2.1 100
      (by decide)
  · exact (C7_watermark [] 5 DEFAULT_START_DATE).1 rfl

/-- C8, counterexample: an oracle that fails on attempts 0–4 and succeeds
on attempt 5 still makes `query_api` succeed — the FROST fetch loop
(`while bad_attempts < 6`) performs up to **6** attempts, not the 5 the
claim states; a 5-attempt loop on the same oracle fails. -/
theorem C8_counterexample :
    query_api (fun i => if i = 5 then some 0 else none) = some 0 ∧
    request_values (fun i => if i = 5 then some (0 : Nat) else none)
      = none := by
  constructor <;> decide

/-- C8, amended: every retry loop is bounded and, once exhausted, returns
a failure value (`None` / `-1`) instead of ending the process — but the
attempt counts differ per loop: 6 for the FROST fetch, 5 for the LANUV
fetch and LANUV database connect, and a single attempt for the INRIX
database connect. -/
theorem C8_bounded_retries {α : Type} (oracle : Nat → Option α) :
    (query_api oracle = none ↔ ∀ j, j < 6 → oracle j = none) ∧
    (request_values oracle = none ↔ ∀ j, j < 5 → oracle j = none) ∧
    (lanuv_connect oracle = none ↔ ∀ j, j < 5 → oracle j = none) ∧
    (inrix_connect oracle = none ↔ oracle 0 = none) := by
  refine ⟨?_, ?_, ?_, Iff.rfl⟩
  · simpa using tryAttempts_eq_none_iff 6 oracle 0
  · simpa using tryAttempts_eq_none_iff 5 oracle 0
  · simpa using tryAttempts_eq_none_iff 5 oracle 0

/-- C8, witness: an always-failing oracle makes the FROST fetch return
the failure value `None` after its attempts are exhausted. -/
theorem C8_bounded_retries_witness :
    query_api (fun _ : Nat => (none : Option Nat)) = none :=
  (C8_bounded_retries fun _ : Nat => (none : Option Nat)).1.mpr fun _ _ => rfl

/-- C9: whenever the confidentiality lookup fails — the database is
unreachable or no row exists for the id — `is_confidential` returns
`True`, and every observation row built (and every measurement coerced
from it) while the lookup is failing carries `confidential = True`
(fail-closed). -/
theorem C9_is_confidential_fail_closed (dbUp : Bool) (table : List (Nat × Bool))
    (id : Nat) (dsid : Nat) (raw : List (RawVal × Nat))
    (hfail : dbUp = false ∨ table.find? (fun p => p.1 = id) = none) :
    is_confidential dbUp table id = true ∧
    (∀ o ∈ buildObsRows dsid (is_confidential dbUp table id) raw,
      o.confidential = true) ∧
    (∀ o ∈ buildObsRows dsid (is_confidential dbUp table id) raw,
      ∀ r : MRow, coerceRow o = some r → r.confidential = true) := by
  have hc : is_confidential dbUp table id = true := by
    rcases hfail with h | h
    · simp [is_confidential, h]
    · cases dbUp <;> simp [is_confidential, h]
  refine ⟨hc, fun o ho => ?_, fun o ho r hr => ?_⟩
  · rw [mem_buildObsRows dsid _ raw o ho, hc]
  · rw [coerceRow_confidential o r hr, mem_buildObsRows dsid _ raw o ho, hc]

/-- C9, witness: the theorem applied to an up database with no row for
id 7 — the built observation is confidential. -/
theorem C9_is_confidential_fail_closed_witness :
    is_confidential true [] 7 = true ∧
    (∀ o ∈ buildObsRows 3 (is_confidential true [] 7) [(RawVal.num 5, 0)],
      o.confidential = true) := by
  have h := C9_is_confidential_fail_closed true [] 7 3 [(RawVal.num 5, 0)]
    (Or.inr rfl)
  exact ⟨h.1, h.2.1⟩

/-- C6, counterexample: a first tick whose speed-segment response is
malformed (`get_speed_segments` returned `-1`, `speedOk = false`) makes
the INRIX `while True` loop `break`: the loop terminates after 1 tick and
the following healthy tick never runs — the failure kills the scheduling
loop instead of skipping one tick. -/
theorem C6_counterexample :
    inrixLoop
        [{ conOk := true, xdsExists := true, tokenOk := true,
           speedOk := false, writeFails := false },
         { conOk := true, xdsExists := true, tokenOk := true,
           speedOk := true, writeFails := false }]
      = .terminated 1 := by decide

/-- C6, amended: in the INRIX scheduler loop the stage failures
(connection, missing reference table, token, malformed response, write
failure) each `break` out of the `while True` loop, so the loop runs its
whole schedule if and only if every tick is failure-free — any single
failure terminates the process rather than skipping that tick. -/
theorem C6_loop_survives_iff (envs : List InrixTickEnv) :
    inrixLoop envs = .ranAll envs.length ↔
      ∀ e ∈ envs, inrixTickHalts e = false := by
  constructor
  · exact inrixLoop_all_ok_of_ranAll envs envs.length
  · exact inrixLoop_ranAll_of_all_ok envs

/-- C6, witness: a healthy two-tick schedule runs in full. -/
theorem C6_loop_survives_iff_witness :
    inrixLoop
        [{ conOk := true, xdsExists := true, tokenOk := true,
           speedOk := true, writeFails := false },
         { conOk := true, xdsExists := true, tokenOk := true,
           speedOk := true, writeFails := false }]
      = .ranAll 2 :=
  (C6_loop_survives_iff
    [{ conOk := true, xdsExists := true, tokenOk := true,
       speedOk := true, writeFails := false },
     { conOk := true, xdsExists := true, tokenOk := true,
       speedOk := true, writeFails := false }]).mpr (by decide)

/-- C2, counterexample: two reconciliation runs for the never-before-seen
external id "9" that interleave as read-read-write-write (the race the
claim says is safe) both insert — the `sensors` table has no uniqueness
constraint on `(source, ex_id)` and `create_sensors` has no conflict
handling — leaving two INRIX sensors with `ex_id = "9"`. -/
theorem C2_counterexample :
    inrix_two_concurrent [] ["9"] ["9"] ["9"] 1 2
      = [{ id := 1, source := "INRIX", ex_id := "9",
           description := "INRIX Speed Segment", confidential := true },
         { id := 2, source := "INRIX", ex_id := "9",
           description := "INRIX Speed Segment", confidential := true }] ∧
    inrixCountFor (inrix_two_concurrent [] ["9"] ["9"] ["9"] 1 2) "9" = 2 := by
  constructor <;> decide

/-- C2, amended: for a *single* (non-concurrent) reconciliation run whose
input ids all occur in the INRIX reference table, reconciliation leaves
exactly one INRIX sensor per distinct input external id (whether the id
was already known or new) and the id lookup afterwards covers every input
external id; under the interleaved concurrent execution this fails, since
nothing enforces uniqueness of `(source, ex_id)`. -/
theorem C2_sequential_reconcile (db0 : SDB) (inrixTable ids : List String)
    (startId : Nat) (hnodup : inrixTable.Nodup)
    (huniq : ∀ y, inrixCountFor db0 y ≤ 1)
    (hsub : ∀ x ∈ ids, x ∈ inrixTable) :
    (∀ x ∈ ids,
      inrixCountFor (inrix_reconcile db0 inrixTable ids startId) x = 1) ∧
    (∀ x ∈ ids,
      ∃ p ∈ get_sensor_ids (inrix_reconcile db0 inrixTable ids startId) ids,
        p.2 = x) := by
  have hcount : ∀ x ∈ ids,
      inrixCountFor (inrix_reconcile db0 inrixTable ids startId) x = 1 :=
    fun x hx =>
      inrixCountFor_reconcile db0 inrixTable ids startId hnodup huniq x hx
        (hsub x hx)
  refine ⟨hcount, fun x hx => ?_⟩
  exact get_sensor_ids_covers _ ids x hx (by rw [hcount x hx]; omega)

/-- C2, witness: one known id ("a") and one new id ("b") reconciled
against a store holding only "a" — afterwards "b" has exactly one INRIX
sensor. -/
theorem C2_sequential_reconcile_witness :
    inrixCountFor
        (inrix_reconcile
          [{ id := 10, source := "INRIX", ex_id := "a",
             description := "INRIX Speed Segment", confidential := true }]
          ["a", "b"] ["a", "b"] 11)
        "b" = 1 := by
  have h := C2_sequential_reconcile
    [{ id := 10, source := "INRIX", ex_id := "a",
       description := "INRIX Speed Segment", confidential := true }]
    ["a", "b"] ["a", "b"] 11 (by decide)
    (by
      intro y
      unfold inrixCountFor
      rw [List.countP_cons]
      simp only [List.countP_nil, Nat.zero_add]
      split <;> omega)
    (by decide)
  exact h.1 "b" (by decide)

/-- A two-observation batch whose rows share a key but differ as rows:
both survive `drop_duplicates`, the bulk insert fails on the second, and
the row-by-row fallback keeps the first. -/
theorem processObservations_pair_first (db : MDB) (o1 o2 : Obs) (r1 r2 : MRow)
    (h1 : coerceRow o1 = some r1) (h2 : coerceRow o2 = some r2)
    (hkey : mkey r1 = mkey r2) (hne : r1 ≠ r2)
    (hfresh : hasKey db (mkey r1) = false) :
    (processObservations db [o1, o2]).1 = db ++ [r1] := by
  unfold processObservations
  rw [feed_table_pd_fst]
  have hcb : coerceBatch [o1, o2] = [r1, r2] := by
    simp [coerceBatch, h1, h2]
  rw [hcb]
  have hdd : dedupFirst [r1, r2] = [r1, r2] := by
    simp [dedupFirst, dedupFirstAux, (Ne.symm hne)]
  rw [hdd]
  have s1 : insertRow db r1 = some (db ++ [r1]) := by
    simp [insertRow, hfresh]
  have hk2 : hasKey (db ++ [r1]) (mkey r2) = true := by
    rw [hasKey_append_singleton, hkey]
    simp
  have s2 : insertRow (db ++ [r1]) r2 = none := by
    simp [insertRow, hk2]
  simp [rowByRow, s1, s2]

/-- C3, counterexample: the spec's own scenario — values "12.5" then "99"
for key (7, 2024-01-01T00:00:00Z) in one batch — stores exactly one row,
but its value is 12.5 (the **first** occurrence), not 99:
`drop_duplicates()` dedups by whole row, so both rows survive, the bulk
insert fails, and the row-by-row fallback inserts the first row and
silently skips the second. -/
theorem C3_counterexample :
    (processObservations []
        [{ datastream_id := 7, result := .str "12.5",
           timestamp := 1704067200, confidential := false },
         { datastream_id := 7, result := .str "99",
           timestamp := 1704067200, confidential := false }]).1
      = [{ datastream_id := 7, timestamp := 1704067200, value := 25 / 2,
           confidential := false }] ∧
    (25 / 2 : ℚ) ≠ 99 := by
  have hv1 : parseDecimal "12.5" = some (25 / 2 : ℚ) := by
    simp +decide [parseDecimal, parseDecimalCore, splitOnDot, parseDigits,
      parseDigitsAux]
    norm_num
  have hv2 : parseDecimal "99" = some (99 : ℚ) := by
    simp +decide [parseDecimal, parseDecimalCore, splitOnDot, parseDigits,
      parseDigitsAux]
  have hr1 : coerceRow
      { datastream_id := 7, result := .str "12.5", timestamp := 1704067200,
        confidential := false }
      = some { datastream_id := 7, timestamp := 1704067200, value := 25 / 2,
               confidential := false } := by
    simp [coerceRow, CHARGING_STATION_VALUES, toNumeric, hv1]
  have hr2 : coerceRow
      { datastream_id := 7, result := .str "99", timestamp := 1704067200,
        confidential := false }
      = some { datastream_id := 7, timestamp := 1704067200, value := 99,
               confidential := false } := by
    simp [coerceRow, CHARGING_STATION_VALUES, toNumeric, hv2]
  have hne : ({ datastream_id := 7, timestamp := 1704067200, value := 25 / 2,
                confidential := false } : MRow)
      ≠ { datastream_id := 7, timestamp := 1704067200, value := 99,
          confidential := false } := by
    simp only [ne_eq, MRow.mk.injEq]
    norm_num
  constructor
  · have h := processObservations_pair_first []
      { datastream_id := 7, result := .str "12.5", timestamp := 1704067200,
        confidential := false }
      { datastream_id := 7, result := .str "99", timestamp := 1704067200,
        confidential := false }
      _ _ hr1 hr2 rfl hne rfl
    simpa using h
  · norm_num

/-- C3, amended: within one ingestion batch `drop_duplicates()` removes
only exact whole-row duplicates, keeping the first occurrence; two
observations that share the `(datastream_id, timestamp)` key but carry
different values both survive the dedup, and the stored row for that key
is the **first** of them (the second is silently skipped by the fallback
insert), so for the scenario's batch the stored value is 12.5, not 99. -/
theorem C3_first_occurrence_wins (db : MDB) (o1 o2 : Obs) (r1 r2 : MRow)
    (h1 : coerceRow o1 = some r1) (h2 : coerceRow o2 = some r2)
    (hkey : mkey r1 = mkey r2) (hne : r1 ≠ r2)
    (hfresh : hasKey db (mkey r1) = false) :
    (processObservations db [o1, o2]).1 = db ++ [r1] :=
  processObservations_pair_first db o1 o2 r1 r2 h1 h2 hkey hne hfresh

/-- C3, witness: the amended theorem applied to integer-valued
observations 2 then 3 for the key (7, 0) over the empty store. -/
theorem C3_first_occurrence_wins_witness :
    (processObservations []
        [{ datastream_id := 7, result := .num 2, timestamp := 0,
           confidential := false },
         { datastream_id := 7, result := .num 3, timestamp := 0,
           confidential := false }]).1
      = [{ datastream_id := 7, timestamp := 0, value := 2,
           confidential := false }] := by
  have h := C3_first_occurrence_wins []
    { datastream_id := 7, result := .num 2, timestamp := 0,
      confidential := false }
    { datastream_id := 7, result := .num 3, timestamp := 0,
      confidential := false }
    { datastream_id := 7, timestamp := 0, value := 2, confidential := false }
    { datastream_id := 7, timestamp := 0, value := 3, confidential := false }
    rfl rfl rfl
    (by simp only [ne_eq, MRow.mk.injEq]; norm_num) rfl
  simpa using h

/-- C4, counterexample: in the LANUV cleaning step (also cited by the
claim), a value that cannot be coerced raises — `clean_data` re-raises
the `ValueError` from `astype(int)` on "abc" instead of counting and
dropping the row — and the sentinel "-" is replaced by "-1" and **stored**
as the measurement value -1, so a non-numeric source value does end up
stored. -/
theorem C4_counterexample :
    clean_data_value "abc" = .error "abc" ∧
    clean_data_value "-" = .ok (-1) := by
  constructor <;> rfl

/-- C4, amended: in the FROST observation pipeline, rows whose value does
not coerce are counted (`length_before - length_after` equals the number
of non-coercible rows) and dropped without any exception, no row that is
not a coerced batch row is ever stored, and every coercible sibling row
with a conflict-free key is still written; in the LANUV path, however,
"-" and "*" are turned into the stored value -1 and any other
non-coercible value raises out of `clean_data`. -/
theorem C4_nonnumeric_rows (db : MDB) (batch : List Obs) :
    skipped_non_numeric batch
        = (batch.filter fun o => (coerceRow o).isNone).length ∧
    (∀ r ∈ (processObservations db batch).1,
      r ∈ db ∨ ∃ o ∈ batch, coerceRow o = some r) ∧
    (∀ o ∈ batch, ∀ r, coerceRow o = some r →
      hasKey db (mkey r) = false →
      (∀ r' ∈ coerceBatch batch, mkey r' = mkey r → r' = r) →
      r ∈ (processObservations db batch).1) ∧
    clean_data_value "-" = .ok (-1) ∧
    clean_data_value "*" = .ok (-1) ∧
    (∀ s : String, clean_data_value s = .error s ↔
      parseIntChars (lanuvCleanChars s.data) = none) := by
  refine ⟨?_, ?_, ?_, rfl, rfl, ?_⟩
  · have h := coerceBatch_length_add batch
    unfold skipped_non_numeric
    omega
  · intro r hr
    unfold processObservations at hr
    rw [feed_table_pd_fst] at hr
    rcases mem_rowByRow _ db r hr with hdb | hdd
    · exact Or.inl hdb
    · right
      have hcb := (mem_dedupFirst _ r).mp hdd
      exact List.mem_filterMap.mp hcb
  · intro o ho r hcr hfree huniq
    unfold processObservations
    rw [feed_table_pd_fst]
    apply rowByRow_insert_of_fresh _ db r _ hfree
    · intro r' hr' hk
      exact huniq r' ((mem_dedupFirst _ r').mp hr') hk
    · exact (mem_dedupFirst _ r).mpr
        (List.mem_filterMap.mpr ⟨o, ho, hcr⟩)
  · intro s
    unfold clean_data_value
    cases h : parseIntChars (lanuvCleanChars s.data) with
    | none => simp
    | some n => simp

/-- C4, witness: a batch holding the non-coercible "abc" and the numeric
5 — one row is counted as skipped and the numeric sibling is stored. -/
theorem C4_nonnumeric_rows_witness :
    skipped_non_numeric
        [{ datastream_id := 7, result := .str "abc", timestamp := 0,
           confidential := false },
         { datastream_id := 8, result := .num 5, timestamp := 1,
           confidential := true }] = 1 ∧
    ({ datastream_id := 8, timestamp := 1, value := 5,
       confidential := true } : MRow)
      ∈ (processObservations []
          [{ datastream_id := 7, result := .str "abc", timestamp := 0,
             confidential := false },
           { datastream_id := 8, result := .num 5, timestamp := 1,
             confidential := true }]).1 := by
  have h := C4_nonnumeric_rows []
    [{ datastream_id := 7, result := .str "abc", timestamp := 0,
       confidential := false },
     { datastream_id := 8, result := .num 5, timestamp := 1,
       confidential := true }]
  constructor
  · rw [h.1]
    decide
  · apply h.2.2.1
      { datastream_id := 8, result := .num 5, timestamp := 1,
        confidential := true }
      (by simp)
      { datastream_id := 8, timestamp := 1, value := 5, confidential := true }
      rfl rfl
    intro r' hr' hk
    have hmem : r' = ({ datastream_id := 8, timestamp := 1, value := 5,
                        confidential := true } : MRow) := by
      simpa [coerceBatch, coerceRow, CHARGING_STATION_VALUES, toNumeric,
        parseDecimal, parseDecimalCore, splitOnDot, parseDigits,
        parseDigitsAux] using hr'
    rw [hmem]

/-- C10, counterexample: the numeric string "42" is not one of the three
charging-station statuses, so it passes through the mapping unchanged —
but it is **not** dropped by the numeric coercion: it is coerced to 42
and stored, contradicting the claim that every other string result is
subsequently dropped. -/
theorem C10_counterexample :
    CHARGING_STATION_VALUES (.str "42") = .str "42" ∧
    coerceRow { datastream_id := 7, result := .str "42", timestamp := 0,
                confidential := false }
      = some { datastream_id := 7, timestamp := 0, value := 42,
               confidential := false } := by
  constructor
  · rfl
  · have hv : parseDecimal "42" = some (42 : ℚ) := by
      simp +decide [parseDecimal, parseDecimalCore, splitOnDot, parseDigits,
        parseDigitsAux]
    simp [coerceRow, CHARGING_STATION_VALUES, toNumeric, hv]

/-- C10, amended: before coercion the FROST pipeline maps the string
results "charging", "available" and "outoforder" to 1, 0 and -1, which
are therefore stored as measurements; every other string result passes
through the mapping unchanged and is then dropped by the numeric coercion
**iff** it does not parse as a number. -/
theorem C10_charging_station_mapping (o : Obs) (s : String)
    (hres : o.result = .str s) :
    (s = "charging" → coerceRow o
      = some { datastream_id := o.datastream_id, timestamp := o.timestamp,
               value := 1, confidential := o.confidential }) ∧
    (s = "available" → coerceRow o
      = some { datastream_id := o.datastream_id, timestamp := o.timestamp,
               value := 0, confidential := o.confidential }) ∧
    (s = "outoforder" → coerceRow o
      = some { datastream_id := o.datastream_id, timestamp := o.timestamp,
               value := -1, confidential := o.confidential }) ∧
    (s ≠ "charging" → s ≠ "available" → s ≠ "outoforder" →
      CHARGING_STATION_VALUES o.result = o.result ∧
      (coerceRow o = none ↔ parseDecimal s = none)) := by
  obtain ⟨d, res, ts, c⟩ := o
  simp only at hres
  subst hres
  refine ⟨?_, ?_, ?_, ?_⟩
  · intro h; subst h; rfl
  · intro h; subst h; rfl
  · intro h; subst h; rfl
  · intro h1 h2 h3
    have hcsv : CHARGING_STATION_VALUES (.str s) = .str s := by
      rw [CHARGING_STATION_VALUES.eq_def]
      split <;> simp_all
    refine ⟨hcsv, ?_⟩
    simp [coerceRow, hcsv, toNumeric, Option.map_eq_none']

/-- C10, witness: the amended theorem applied to a "charging" result —
it is stored as the measurement value 1. -/
theorem C10_charging_station_mapping_witness :
    coerceRow { datastream_id := 7, result := .str "charging",
                timestamp := 0, confidential := true }
      = some { datastream_id := 7, timestamp := 0, value := 1,
               confidential := true } :=
  (C10_charging_station_mapping
    { datastream_id := 7, result := .str "charging", timestamp := 0,
      confidential := true } "charging" rfl).1 rfl
